import Mathlib

/-!
Verification development for an audio cue-sheet editor.

The program is a React application (App.tsx, Timeline/Controls.tsx,
CueList.tsx, audioUtils.ts).  The definitions below are a shallow
embedding of its pure logic: JavaScript numbers are modelled as exact
rationals (ℚ), JSON values as an inductive type, and the React event
handlers as functions from their inputs (component state, pointer
coordinates, bounding rectangle) to the effects they issue (store
updates, seeks, state changes).
-/

namespace CueSheet

/-! ## Constants (Timeline component) -/

/-- const MIN_ZOOM = 10 -/
def MIN_ZOOM : ℚ := 10

/-- const MAX_ZOOM = 600 -/
def MAX_ZOOM : ℚ := 600

/-- const NUM_ROWS = 4 -/
def NUM_ROWS : ℚ := 4

/-! ## JavaScript numeric primitives -/

/-- JavaScript Math.floor on a number, as an integer. -/
def jsFloor (q : ℚ) : ℤ := ⌊q⌋

/-- JavaScript Math.round: round half toward positive infinity. -/
def jsRound (q : ℚ) : ℤ := ⌊q + 1/2⌋

/-- Math.max(0, Math.min(hi, x)) — the clamp pattern used throughout the source. -/
def jsClamp (hi x : ℚ) : ℚ := max 0 (min hi x)

/-! ## Data model (types.ts) -/

/-- interface Cue: id, time (seconds), label, color, row. -/
structure Cue where
  id : String
  time : ℚ
  label : String
  color : String
  row : ℚ
deriving Repr, DecidableEq

/-- DOMRect of the timeline container, as consumed by the handlers. -/
structure Rect where
  left : ℚ
  top : ℚ
  width : ℚ
  height : ℚ
deriving Repr, DecidableEq

/-! ## Time-Space Mapper (Timeline component) -/

/-- startT = viewCenterTime - (width/2)/zoom, the left edge of the visible window. -/
def visibleStartTime (viewCenterTime zoom width : ℚ) : ℚ :=
  viewCenterTime - (width / 2) / zoom

/-- getCueScreenX: (time - startT) * zoom, for a container of the given width. -/
def getCueScreenX (viewCenterTime zoom width t : ℚ) : ℚ :=
  (t - visibleStartTime viewCenterTime zoom width) * zoom

/-- the inverse conversion used by the click-to-seek and drag handlers:
mouseX / zoom + startT. -/
def xToTime (viewCenterTime zoom width x : ℚ) : ℚ :=
  x / zoom + visibleStartTime viewCenterTime zoom width

/-! ## Timeline interaction state and handlers -/

/-- The view/interaction state held by the Timeline component. -/
structure TimelineState where
  zoom : ℚ
  isFollowing : Bool
  viewCenterTime : ℚ
  draggingCueId : Option String
  isPanning : Bool
  dragStartX : ℚ
  dragStartTime : ℚ
  snapToGrid : Bool
deriving Repr, DecidableEq

/-- handleMouseDown: start a pan — record start X and start center, disable follow. -/
def handleMouseDown (s : TimelineState) (clientX : ℚ) : TimelineState :=
  { s with isPanning := true, dragStartX := clientX,
           dragStartTime := s.viewCenterTime, isFollowing := false }

/-- The  time, row  pair computed by the dragging branch of handleGlobalMouseMove. -/
structure DragMoveResult where
  time : ℚ
  row : ℚ
deriving Repr, DecidableEq

/-- The dragging branch of handleGlobalMouseMove: convert pointer X to a time,
clamp it to [0, duration], snap to 0.1 s when enabled; convert pointer Y to a
row index and clamp it to the valid range. -/
def dragMoveUpdate (rect : Rect) (viewCenterTime zoom duration : ℚ)
    (snapToGrid : Bool) (clientX clientY : ℚ) : DragMoveResult :=
  let halfWindow := rect.width / 2
  let mouseX := clientX - rect.left
  let startT := viewCenterTime - halfWindow / zoom
  let newTime0 := mouseX / zoom + startT
  let newTime1 := max 0 (min duration newTime0)
  let newTime := if snapToGrid then (jsRound (newTime1 * 10) : ℚ) / 10 else newTime1
  let mouseY := clientY - rect.top
  let rowHeight := rect.height / NUM_ROWS
  let newRow0 : ℚ := (jsFloor (mouseY / rowHeight) : ℚ)
  let newRow := max 0 (min (NUM_ROWS - 1) newRow0)
  ⟨newTime, newRow⟩

/-- The effect a mousemove issues: a cue update, a view-center change, or nothing. -/
inductive MoveEffect where
  | updateCue (id : String) (time row : ℚ)
  | setCenter (c : ℚ)
  | noop
deriving Repr, DecidableEq

/-- handleGlobalMouseMove: when a cue is being dragged, issue an update of its
time and row (returning early); otherwise, when panning, move the view center
by the pointer displacement divided by zoom, clamped to [0, duration]. -/
def handleGlobalMouseMove (s : TimelineState) (rect : Option Rect)
    (duration : ℚ) (clientX clientY : ℚ) : MoveEffect :=
  match s.draggingCueId with
  | some cueId =>
    match rect with
    | none => .noop
    | some r =>
      let res := dragMoveUpdate r s.viewCenterTime s.zoom duration s.snapToGrid clientX clientY
      .updateCue cueId res.time res.row
  | none =>
    if s.isPanning then
      let deltaPixels := clientX - s.dragStartX
      let deltaTime := deltaPixels / s.zoom
      .setCenter (max 0 (min duration (s.dragStartTime - deltaTime)))
    else .noop

/-- The new view center set by one pan move (the setCenter payload above). -/
def panNewCenter (dragStartTime zoom duration dragStartX clientX : ℚ) : ℚ :=
  max 0 (min duration (dragStartTime - (clientX - dragStartX) / zoom))

/-- handleGlobalMouseUp, restricted to the seeks it issues: when a pan ends
with a pointer displacement of less than 5 px and the container rectangle is
available, one seek to the clamped click time; otherwise none. -/
def mouseUpSeeks (s : TimelineState) (rect : Option Rect)
    (duration : ℚ) (clientX : ℚ) : List ℚ :=
  if s.isPanning then
    if |clientX - s.dragStartX| < 5 then
      match rect with
      | some r =>
        let halfWindow := r.width / 2
        let mouseX := clientX - r.left
        let startT := s.viewCenterTime - halfWindow / s.zoom
        let clickTime := mouseX / s.zoom + startT
        let clampedTime := max 0 (min duration clickTime)
        [clampedTime]
      | none => []
    else []
  else []

/-! ## Cue Store mutations (App.tsx) -/

/-- handleUpdateCue specialised to the update a cue-drag move issues,
namely fresh time and row: map over the store, merging the two fields
into the cue whose id matches. -/
def updateCueTimeRow (cues : List Cue) (cueId : String) (t r : ℚ) : List Cue :=
  cues.map fun c => if c.id = cueId then { c with time := t, row := r } else c

/-! ## Cue List Projector (CueList.tsx) -/

/-- The stable ascending-by-time ordering produced by
`[...cues].sort((a, b) => a.time - b.time)`. -/
def insertCue (c : Cue) : List Cue → List Cue
  | [] => [c]
  | d :: ds => if c.time ≤ d.time then c :: d :: ds else d :: insertCue c ds

/-- Sort the cue list ascending by time (stable, as the JS sort is). -/
def sortCues : List Cue → List Cue
  | [] => []
  | c :: cs => insertCue c (sortCues cs)

/-- The per-row values the CueList render computes for one cue. -/
structure CueView where
  isPast : Bool
  isNow : Bool
  isActiveSegment : Bool
  progressPercent : ℚ
deriving Repr, DecidableEq

/-- One row of the CueList table body: diff, past/now classification, and the
sequential fader progress over the window [prevTime, cue.time]. -/
def mkView (prevTime : ℚ) (cue : Cue) (currentTime : ℚ) : CueView :=
  let diff := cue.time - currentTime
  let isPast : Bool := decide (diff < -(1/2 : ℚ))
  let isNow : Bool := !isPast && decide (diff ≤ 0)
  let windowDuration := cue.time - prevTime
  let isActiveSegment : Bool := decide (prevTime ≤ currentTime) && decide (currentTime ≤ cue.time)
  let progressPercent : ℚ :=
    if isActiveSegment then
      if windowDuration > 0 then ((currentTime - prevTime) / windowDuration) * 100
      else 100
    else if currentTime > cue.time then 100
    else 0
  ⟨isPast, isNow, isActiveSegment, progressPercent⟩

/-- Map the sorted cues to their views, threading the previous cue's time
(0 before the first cue) as the window start of the sequential fader. -/
def projectViews (currentTime : ℚ) : ℚ → List Cue → List CueView
  | _, [] => []
  | prevTime, c :: rest => mkView prevTime c currentTime :: projectViews currentTime c.time rest

/-- The full projection CueList computes from the store and the current time. -/
def project (cues : List Cue) (currentTime : ℚ) : List CueView :=
  projectViews currentTime 0 (sortCues cues)

/-- Array.prototype.findIndex: the index of the first element satisfying the
predicate, counted from `i`, or -1 when there is none. -/
def findIndexFrom (p : Cue → Bool) : ℕ → List Cue → ℤ
  | _, [] => -1
  | i, c :: cs => if p c then (i : ℤ) else findIndexFrom p (i + 1) cs

/-- nextIndex = sortedCues.findIndex(c => c.time > currentTime), -1 when absent. -/
def nextIndex (cues : List Cue) (currentTime : ℚ) : ℤ :=
  findIndexFrom (fun c => decide (currentTime < c.time)) 0 (sortCues cues)

/-- nextCue = nextIndex !== -1 ? sortedCues[nextIndex] : null. -/
def nextCue (cues : List Cue) (currentTime : ℚ) : Option Cue :=
  if nextIndex cues currentTime ≠ -1 then (sortCues cues).get? (nextIndex cues currentTime).toNat
  else none

/-! ## JSON model (import/export boundary, App.tsx)

JSON values as produced by JSON.parse.  JSON has no NaN, so a JS number
that may be NaN is modelled as `Option ℚ` with `none` for NaN. -/

inductive JVal where
  | jnull
  | jbool (b : Bool)
  | jnum (q : ℚ)
  | jstr (s : String)
  | jarr (items : List JVal)
  | jobj (fields : List (String × JVal))
deriving Repr

/-- Property access o.k on a value that is not null: a field lookup on
objects, undefined (none) on primitives and arrays.  Property access on
null throws a TypeError in JS; the callers model that throw explicitly
(handleCueImport for the parsed document, normalizeCues for the records),
so this function is only the model of a non-throwing access. -/
def getField (v : JVal) (k : String) : Option JVal :=
  match v with
  | .jobj fields => fields.lookup k
  | _ => none

/-- JavaScript truthiness of a value. -/
def truthyV : JVal → Bool
  | .jnull => false
  | .jbool b => b
  | .jnum q => decide (q ≠ 0)
  | .jstr s => decide (s ≠ "")
  | .jarr _ => true
  | .jobj _ => true

/-- JavaScript `x || y` where x may be an absent property (undefined). -/
def jsOr (x : Option JVal) (y : JVal) : JVal :=
  match x with
  | some v => if truthyV v then v else y
  | none => y

/-- A JavaScript number as produced by Number(): NaN, a signed infinity, or
a finite value (idealised as an exact rational). -/
inductive JsNum where
  | nan
  | inf (neg : Bool)
  | fin (q : ℚ)
deriving Repr, DecidableEq

/-- Decimal digit test, as in JS string-to-number conversion. -/
def isDigitCh (c : Char) : Bool := decide ('0' ≤ c) && decide (c ≤ '9')

/-- Hexadecimal digit test. -/
def isHexDigitCh (c : Char) : Bool :=
  isDigitCh c || (decide ('a' ≤ c) && decide (c ≤ 'f')) ||
    (decide ('A' ≤ c) && decide (c ≤ 'F'))

/-- Octal digit test. -/
def isOctDigitCh (c : Char) : Bool := decide ('0' ≤ c) && decide (c ≤ '7')

/-- Binary digit test. -/
def isBinDigitCh (c : Char) : Bool := c = '0' || c = '1'

/-- Value of a hexadecimal digit (assumes a hex digit). -/
def hexVal (c : Char) : ℕ :=
  if isDigitCh c then c.toNat - '0'.toNat
  else if decide ('a' ≤ c) && decide (c ≤ 'f') then c.toNat - 'a'.toNat + 10
  else c.toNat - 'A'.toNat + 10

/-- Value of a decimal digit string (assumes digits). -/
def digitsVal (cs : List Char) : ℕ :=
  cs.foldl (fun acc c => acc * 10 + (c.toNat - '0'.toNat)) 0

/-- Value of a hexadecimal digit string (assumes hex digits). -/
def hexDigitsVal (cs : List Char) : ℕ :=
  cs.foldl (fun acc c => acc * 16 + hexVal c) 0

/-- Value of an octal digit string (assumes octal digits). -/
def octDigitsVal (cs : List Char) : ℕ :=
  cs.foldl (fun acc c => acc * 8 + (c.toNat - '0'.toNat)) 0

/-- Value of a binary digit string (assumes binary digits). -/
def binDigitsVal (cs : List Char) : ℕ :=
  cs.foldl (fun acc c => acc * 2 + (c.toNat - '0'.toNat)) 0

/-- Parse the decimal mantissa (digits, d.d, d. or .d); returns its value and
the remaining characters, or none when no mantissa is present. -/
def parseDecMantissa (cs : List Char) : Option (ℚ × List Char) :=
  let ip := cs.takeWhile isDigitCh
  let r1 := cs.dropWhile isDigitCh
  match r1 with
  | '.' :: r2 =>
    let fp := r2.takeWhile isDigitCh
    let r3 := r2.dropWhile isDigitCh
    if ip.isEmpty && fp.isEmpty then none
    else some ((digitsVal ip : ℚ) + (digitsVal fp : ℚ) / (10 : ℚ) ^ fp.length, r3)
  | _ => if ip.isEmpty then none else some ((digitsVal ip : ℚ), r1)

/-- Parse the exponent part after the e or E of a decimal literal. -/
def parseExpTail (m : ℚ) (es : List Char) : JsNum :=
  match es with
  | '-' :: ds =>
    if !ds.isEmpty && ds.all isDigitCh then .fin (m / (10 : ℚ) ^ digitsVal ds) else .nan
  | '+' :: ds =>
    if !ds.isEmpty && ds.all isDigitCh then .fin (m * (10 : ℚ) ^ digitsVal ds) else .nan
  | ds =>
    if !ds.isEmpty && ds.all isDigitCh then .fin (m * (10 : ℚ) ^ digitsVal ds) else .nan

/-- Parse a 0x, 0o or 0b integer literal (these forms never take a sign). -/
def parseNonDecimal (cs : List Char) : Option ℚ :=
  match cs with
  | '0' :: b :: ds =>
    if (b = 'x' || b = 'X') && !ds.isEmpty && ds.all isHexDigitCh then
      some (hexDigitsVal ds : ℚ)
    else if (b = 'o' || b = 'O') && !ds.isEmpty && ds.all isOctDigitCh then
      some (octDigitsVal ds : ℚ)
    else if (b = 'b' || b = 'B') && !ds.isEmpty && ds.all isBinDigitCh then
      some (binDigitsVal ds : ℚ)
    else none
  | _ => none

/-- Parse an unsigned decimal literal with optional exponent, or Infinity. -/
def parseUnsignedJs (cs : List Char) : JsNum :=
  if cs = ['I', 'n', 'f', 'i', 'n', 'i', 't', 'y'] then .inf false
  else match parseDecMantissa cs with
    | none => .nan
    | some (m, rest) =>
      match rest with
      | [] => .fin m
      | 'e' :: es => parseExpTail m es
      | 'E' :: es => parseExpTail m es
      | _ => .nan

/-- Negation of a JS number. -/
def jsNegate : JsNum → JsNum
  | .fin q => .fin (-q)
  | .inf b => .inf (!b)
  | .nan => .nan

/-- The whitespace characters Number(string) strips. -/
def isJsSpace (c : Char) : Bool :=
  c = ' ' || c = '\t' || c = '\n' || c = '\r' || c = '\x0B' || c = '\x0C'

/-- JavaScript Number(string): an empty or all-whitespace string is 0;
otherwise an optionally signed decimal literal with optional fraction and
exponent, a signed Infinity, or an unsigned 0x/0o/0b integer literal;
anything else is NaN. -/
def jsStringToNumber (s : String) : JsNum :=
  let t := ((s.toList.dropWhile isJsSpace).reverse.dropWhile isJsSpace).reverse
  if t.isEmpty then .fin 0
  else match t with
    | '-' :: rest => jsNegate (parseUnsignedJs rest)
    | '+' :: rest => parseUnsignedJs rest
    | _ =>
      match parseNonDecimal t with
      | some q => .fin q
      | none => parseUnsignedJs t

/-- JavaScript Number(x) on a JSON value.  Arrays and objects coerce through
their joined string form in JS (so an object is always NaN and a multi-element
array always is, the comma never parsing); the residual approximation is that
a one-element array is modelled as NaN, while JS reads it through the string
form of its element.  The documents this program writes never carry arrays or
objects in numeric fields, and the theorems about arbitrary documents exclude
array-valued time fields. -/
def jvalToNumber : JVal → JsNum
  | .jnull => .fin 0
  | .jbool b => .fin (if b then 1 else 0)
  | .jnum q => .fin q
  | .jstr s => jsStringToNumber s
  | .jarr _ => .nan
  | .jobj _ => .nan

/-- JavaScript Number(x) on a possibly absent JSON value; undefined is NaN. -/
def jsToNumber : Option JVal → JsNum
  | none => .nan
  | some v => jvalToNumber v

/-- JavaScript `x || dflt` on a number x: NaN and 0 are falsy and fall
through to the default; every other number, infinities included, is kept. -/
def jsOrNum (x : JsNum) (dflt : ℚ) : JsNum :=
  match x with
  | .fin q => if q ≠ 0 then .fin q else .fin dflt
  | .inf b => .inf b
  | .nan => .fin dflt

/-- A cue record as built by the import normalisation.  id, label and color
keep whatever (truthy) JSON value the record carried; time is the JS number
Number(c.time) || 0 (possibly an infinity for an Infinity-string time); row
is a plain number by construction. -/
structure ImportedCue where
  id : JVal
  time : JsNum
  label : JVal
  color : JVal
  row : ℚ
deriving Repr

/-- One record of data.cues.map(...) on a record whose property accesses do
not throw: field-by-field defaulting, with `fresh` the crypto.randomUUID()
value generated for this record. -/
def normalizeCue (fresh : String) (c : JVal) : ImportedCue :=
  { id := jsOr (getField c "id") (.jstr fresh)
    time := jsOrNum (jsToNumber (getField c "time")) 0
    label := jsOr (getField c "label") (.jstr "Imported Cue")
    color := jsOr (getField c "color") (.jstr "#ef4444")
    row := match getField c "row" with
           | some (.jnum q) => q
           | _ => 0 }

/-- One step of the map: a null record throws a TypeError at c.id (none);
any other record is normalised. -/
def normalizeCue? (fresh : String) (c : JVal) : Option ImportedCue :=
  match c with
  | .jnull => none
  | _ => some (normalizeCue fresh c)

/-- data.cues.map(...) evaluated left to right, starting at record index i:
none when some record throws (a null record), otherwise the normalised
records in order. -/
def normalizeCues (fresh : ℕ → String) : ℕ → List JVal → Option (List ImportedCue)
  | _, [] => some []
  | i, c :: cs =>
    match normalizeCue? (fresh i) c with
    | none => none
    | some n => (normalizeCues fresh (i + 1) cs).map (n :: ·)

/-- Outcome of handleCueImport: the store is replaced, or an alert is shown
and nothing else happens. -/
inductive ImportResult where
  | replaced (cues : List ImportedCue)
  | importError (msg : String)
deriving Repr

/-- handleCueImport on the parsed file content (`none` = JSON.parse threw):
data.cues on a null document throws inside the try and lands in the catch;
with an Array data.cues each record is normalised, but a throw while mapping
(a null record) also lands in the catch; without an Array cues field the
invalid-format alert is shown.  Every error path leaves the store alone.
`fresh i` models the crypto.randomUUID() drawn for record i. -/
def handleCueImport (fresh : ℕ → String) (parsed : Option JVal) : ImportResult :=
  match parsed with
  | none => .importError "Failed to parse JSON file."
  | some .jnull => .importError "Failed to parse JSON file."
  | some data =>
    match getField data "cues" with
    | some (.jarr cs) =>
      match normalizeCues fresh 0 cs with
      | some l => .replaced l
      | none => .importError "Failed to parse JSON file."
    | _ => .importError "Invalid JSON format: missing cues array."

/-- The cue store after an import attempt: setCues happens only in the
success branch. -/
def importNewStore (old : List ImportedCue) (r : ImportResult) : List ImportedCue :=
  match r with
  | .replaced cs => cs
  | .importError _ => old

/-! ## Export (App.tsx handleExport) -/

/-- The JSON serialisation of one store cue inside the export document. -/
def cueToJson (c : Cue) : JVal :=
  .jobj [("id", .jstr c.id), ("time", .jnum c.time), ("label", .jstr c.label),
         ("color", .jstr c.color), ("row", .jnum c.row)]

/-- The export document handleExport downloads:
projectName, duration, cues, exportDate. -/
def exportDoc (fileName : Option String) (duration : ℚ) (cues : List Cue)
    (exportDate : String) : JVal :=
  .jobj [("projectName", match fileName with | some s => .jstr s | none => .jnull),
         ("duration", .jnum duration),
         ("cues", .jarr (cues.map cueToJson)),
         ("exportDate", .jstr exportDate)]

/-! ## App-level state and the audio upload handler (App.tsx) -/

/-- A decoded audio buffer, opaque except for its duration and an identity. -/
structure AudioBufferM where
  duration : ℚ
  bufId : ℕ
deriving Repr, DecidableEq

/-- The App component state the upload handler touches. -/
structure AppState where
  audioBuffer : Option AudioBufferM
  fileName : Option String
  isPlaying : Bool
  currentTime : ℚ
  duration : ℚ
  cues : List Cue
  pauseTime : ℚ
deriving Repr, DecidableEq

/-- pauseAudio: stop the source node, remember the pause position. -/
def pauseAudio (s : AppState) : AppState :=
  { s with isPlaying := false, pauseTime := s.currentTime }

/-- handleStop: pause, then reset current time and the pause position to 0. -/
def handleStop (s : AppState) : AppState :=
  { pauseAudio s with currentTime := 0, pauseTime := 0 }

/-- handleFileUpload on a selected file: stop playback first, then decode;
on decode failure alert and change nothing further, on success install the
buffer, duration and name and reset the cues.  `file` is none when no file
was selected; the second component is none when decodeAudioData rejects. -/
def handleFileUpload (s : AppState) (file : Option (String × Option AudioBufferM)) : AppState :=
  match file with
  | none => s
  | some (name, decodeResult) =>
    let s1 := handleStop s
    match decodeResult with
    | none => s1
    | some buf =>
      { s1 with audioBuffer := some buf, duration := buf.duration,
                fileName := some name, cues := [] }

/-! ## Helper lemmas -/

/-- Shifting the start index of findIndexFrom shifts a found index by one. -/
theorem findIndexFrom_shift (p : Cue → Bool) (l : List Cue) : ∀ i : ℕ,
    findIndexFrom p (i + 1) l =
      (if findIndexFrom p i l = -1 then -1 else findIndexFrom p i l + 1) := by
  induction l with
  | nil => intro i; simp [findIndexFrom]
  | cons c cs ih =>
    intro i
    by_cases hp : p c
    · simp only [findIndexFrom, hp, if_true]
      rw [if_neg (by omega)]
      push_cast
      ring
    · simp only [findIndexFrom, hp, if_false]
      exact ih (i + 1)

/-- findIndexFrom returns -1 or an index at least the start index. -/
theorem findIndexFrom_neg_one_or_nonneg (p : Cue → Bool) (l : List Cue) : ∀ i : ℕ,
    findIndexFrom p i l = -1 ∨ 0 ≤ findIndexFrom p i l := by
  induction l with
  | nil => intro i; left; rfl
  | cons c cs ih =>
    intro i
    by_cases hp : p c
    · right; simp [findIndexFrom, hp]
    · simpa [findIndexFrom, hp] using ih (i + 1)

/-- Indexing at the result of findIndexFrom is exactly find?. -/
theorem findIndexFrom_get?_eq_find? (p : Cue → Bool) (l : List Cue) :
    (if findIndexFrom p 0 l = -1 then none else l.get? (findIndexFrom p 0 l).toNat) =
      l.find? p := by
  induction l with
  | nil => simp [findIndexFrom]
  | cons c cs ih =>
    by_cases hp : p c
    · simp [findIndexFrom, hp, List.find?_cons]
    · have hstep : findIndexFrom p 0 (c :: cs) = findIndexFrom p (0 + 1) cs := by
        simp [findIndexFrom, hp]
      rw [hstep, findIndexFrom_shift]
      rcases findIndexFrom_neg_one_or_nonneg p cs 0 with h | h
      · simp only [h, if_true, List.find?_cons, hp]
        rw [← ih, h, if_pos rfl]
      · have hne : findIndexFrom p 0 cs ≠ -1 := by omega
        rw [if_neg hne, if_neg (by omega)]
        have ht : (findIndexFrom p 0 cs + 1).toNat = (findIndexFrom p 0 cs).toNat + 1 := by
          omega
        rw [ht]
        simp only [List.get?_cons_succ, List.find?_cons, hp]
        rw [← ih, if_neg hne]

/-- nextCue is the first sorted cue strictly after the current time. -/
theorem nextCue_eq_find? (cues : List Cue) (t : ℚ) :
    nextCue cues t = (sortCues cues).find? fun c => decide (t < c.time) := by
  unfold nextCue nextIndex
  rw [← findIndexFrom_get?_eq_find?]
  by_cases h : findIndexFrom (fun c => decide (t < c.time)) 0 (sortCues cues) = -1
  · simp [h]
  · simp [h]

/-- Each view produced by projectViews is mkView of the cue at the same index,
with the window start 0 for the first cue and the previous time after that. -/
theorem projectViews_get? (currentTime : ℚ) (l : List Cue) :
    ∀ (prevTime : ℚ) (i : ℕ) (view : CueView),
      (projectViews currentTime prevTime l).get? i = some view →
      ∃ cue, l.get? i = some cue ∧
        view = mkView (if i = 0 then prevTime else (((l.get? (i - 1)).map Cue.time).getD 0))
          cue currentTime := by
  induction l with
  | nil => intro prevTime i view h; simp [projectViews] at h
  | cons c cs ih =>
    intro prevTime i view h
    match i with
    | 0 =>
      simp only [projectViews, List.get?_cons_zero, Option.some.injEq] at h
      exact ⟨c, rfl, by simp [← h]⟩
    | Nat.succ j =>
      simp only [projectViews, List.get?_cons_succ] at h
      obtain ⟨cue, hc, hv⟩ := ih c.time j view h
      refine ⟨cue, by simpa using hc, ?_⟩
      match j with
      | 0 => simpa using hv
      | Nat.succ k => simpa using hv

/-- Each pan move lands the view center inside [0, duration]. -/
theorem panNewCenter_bounds (dragStartTime zoom duration dragStartX clientX : ℚ)
    (hd : 0 ≤ duration) :
    0 ≤ panNewCenter dragStartTime zoom duration dragStartX clientX ∧
    panNewCenter dragStartTime zoom duration dragStartX clientX ≤ duration := by
  unfold panNewCenter
  exact ⟨le_max_left _ _, max_le hd (min_le_left _ _)⟩

/-- A whole sequence of pan moves keeps the view center inside [0, duration]. -/
theorem pan_fold_bounds (duration zoom : ℚ) (hd : 0 ≤ duration) :
    ∀ (moves : List (ℚ × ℚ)) (c0 : ℚ), 0 ≤ c0 → c0 ≤ duration →
    0 ≤ moves.foldl (fun c m => panNewCenter c zoom duration m.1 m.2) c0 ∧
    moves.foldl (fun c m => panNewCenter c zoom duration m.1 m.2) c0 ≤ duration := by
  intro moves
  induction moves with
  | nil => intro c0 h0 h1; exact ⟨h0, h1⟩
  | cons m ms ih =>
    intro c0 h0 h1
    simp only [List.foldl_cons]
    exact ih _ (panNewCenter_bounds _ _ _ _ _ hd).1 (panNewCenter_bounds _ _ _ _ _ hd).2

/-! ## Claim theorems -/

/-- C1: for every time t, every zoom in [MIN_ZOOM, MAX_ZOOM] with zoom > 0,
every view center and viewport width, converting t to a pixel with
getCueScreenX and back with xToTime yields t again. -/
theorem mapper_inverse (viewCenterTime zoom width t : ℚ)
    (hmin : MIN_ZOOM ≤ zoom) (hmax : zoom ≤ MAX_ZOOM) (hz : 0 < zoom) :
    xToTime viewCenterTime zoom width (getCueScreenX viewCenterTime zoom width t) = t := by
  have hz' : zoom ≠ 0 := ne_of_gt hz
  unfold xToTime getCueScreenX visibleStartTime
  field_simp
  ring

/-- Witness for C1 at zoom 100, center 5, width 800, t 3. -/
theorem mapper_inverse_witness :
    MIN_ZOOM ≤ (100 : ℚ) ∧ (100 : ℚ) ≤ MAX_ZOOM ∧ (0 : ℚ) < 100 ∧
      xToTime 5 100 800 (getCueScreenX 5 100 800 3) = 3 :=
  ⟨by norm_num [MIN_ZOOM], by norm_num [MAX_ZOOM], by norm_num,
    mapper_inverse 5 100 800 3 (by norm_num [MIN_ZOOM]) (by norm_num [MAX_ZOOM]) (by norm_num)⟩

/-- C3: while a cue is dragged, every pointer move issues a store update of
that cue on the move itself; the applied time is the Mapper conversion of the
pointer X, clamped to [0, duration] and then, under snap-to-grid, rounded to
the nearest 0.1 s — hence a multiple of 0.1; the applied row is
floor(pointerY / (viewportHeight / NUM_ROWS)) clamped to [0, NUM_ROWS - 1],
for every pointer Y including positions outside the viewport. -/
theorem drag_move_spec (s : TimelineState) (r : Rect) (duration clientX clientY : ℚ)
    (cueId : String) (hdrag : s.draggingCueId = some cueId) :
    handleGlobalMouseMove s (some r) duration clientX clientY =
      .updateCue cueId
        (dragMoveUpdate r s.viewCenterTime s.zoom duration s.snapToGrid clientX clientY).time
        (dragMoveUpdate r s.viewCenterTime s.zoom duration s.snapToGrid clientX clientY).row ∧
    (dragMoveUpdate r s.viewCenterTime s.zoom duration s.snapToGrid clientX clientY).time =
      (if s.snapToGrid then
        ((jsRound ((max 0 (min duration
            (xToTime s.viewCenterTime s.zoom r.width (clientX - r.left)))) * 10) : ℚ) / 10)
       else max 0 (min duration (xToTime s.viewCenterTime s.zoom r.width (clientX - r.left)))) ∧
    (s.snapToGrid = true → ∃ k : ℤ,
      (dragMoveUpdate r s.viewCenterTime s.zoom duration s.snapToGrid clientX clientY).time =
        (k : ℚ) / 10) ∧
    (dragMoveUpdate r s.viewCenterTime s.zoom duration s.snapToGrid clientX clientY).row =
      max 0 (min (NUM_ROWS - 1) ((jsFloor ((clientY - r.top) / (r.height / NUM_ROWS))) : ℚ)) ∧
    0 ≤ (dragMoveUpdate r s.viewCenterTime s.zoom duration s.snapToGrid clientX clientY).row ∧
    (dragMoveUpdate r s.viewCenterTime s.zoom duration s.snapToGrid clientX clientY).row ≤
      NUM_ROWS - 1 := by
  refine ⟨by simp [handleGlobalMouseMove, hdrag], rfl, ?_, rfl, ?_, ?_⟩
  · intro hsnap
    exact ⟨jsRound ((max 0 (min duration
      (xToTime s.viewCenterTime s.zoom r.width (clientX - r.left)))) * 10),
      by simp [dragMoveUpdate, hsnap, xToTime, visibleStartTime]⟩
  · exact le_max_left _ _
  · exact max_le (by norm_num [NUM_ROWS]) (min_le_left _ _)

/-- Witness for C3: a drag move at pointer (437, -50) over an 800 by 400
viewport with snap enabled updates the cue to time 5.4 and row 0. -/
theorem drag_move_spec_witness :
    (({ zoom := 100, isFollowing := false, viewCenterTime := 5, draggingCueId := some "c1",
        isPanning := false, dragStartX := 0, dragStartTime := 0, snapToGrid := true } :
        TimelineState).draggingCueId = some "c1") ∧
    handleGlobalMouseMove
      { zoom := 100, isFollowing := false, viewCenterTime := 5, draggingCueId := some "c1",
        isPanning := false, dragStartX := 0, dragStartTime := 0, snapToGrid := true }
      (some ⟨0, 0, 800, 400⟩) 60 437 (-50) = .updateCue "c1" (27/5) 0 := by
  refine ⟨rfl, ?_⟩
  rw [(drag_move_spec
    { zoom := 100, isFollowing := false, viewCenterTime := 5, draggingCueId := some "c1",
      isPanning := false, dragStartX := 0, dragStartTime := 0, snapToGrid := true }
    ⟨0, 0, 800, 400⟩ 60 437 (-50) "c1" rfl).1]
  norm_num [dragMoveUpdate, jsRound, jsFloor, NUM_ROWS, min_def, max_def]

/-- C4: a pan gesture whose pointer-up displacement is under 5 px issues
exactly one seek, to the Mapper conversion of the pointer-up X clamped to
[0, duration]; a displacement of 5 px or more issues zero seeks. -/
theorem click_to_seek_spec (s : TimelineState) (r : Rect) (duration clientX : ℚ)
    (hpan : s.isPanning = true) :
    (|clientX - s.dragStartX| < 5 →
       mouseUpSeeks s (some r) duration clientX =
         [max 0 (min duration (xToTime s.viewCenterTime s.zoom r.width (clientX - r.left)))]) ∧
    (5 ≤ |clientX - s.dragStartX| → mouseUpSeeks s (some r) duration clientX = []) := by
  constructor
  · intro h
    simp [mouseUpSeeks, hpan, h, xToTime, visibleStartTime]
  · intro h
    simp [mouseUpSeeks, hpan, not_lt.mpr h]

/-- Witness for C4: with start X 10, a pointer-up at X 12 seeks once to
26.12 s; a pointer-up at X 100 seeks zero times. -/
theorem click_to_seek_spec_witness :
    (({ zoom := 100, isFollowing := false, viewCenterTime := 30, draggingCueId := none,
        isPanning := true, dragStartX := 10, dragStartTime := 30, snapToGrid := true } :
        TimelineState).isPanning = true) ∧
    |(12 : ℚ) - 10| < 5 ∧
    mouseUpSeeks
      { zoom := 100, isFollowing := false, viewCenterTime := 30, draggingCueId := none,
        isPanning := true, dragStartX := 10, dragStartTime := 30, snapToGrid := true }
      (some ⟨0, 0, 800, 400⟩) 60 12 = [653/25] ∧
    (5 : ℚ) ≤ |(100 : ℚ) - 10| ∧
    mouseUpSeeks
      { zoom := 100, isFollowing := false, viewCenterTime := 30, draggingCueId := none,
        isPanning := true, dragStartX := 10, dragStartTime := 30, snapToGrid := true }
      (some ⟨0, 0, 800, 400⟩) 60 100 = [] := by
  refine ⟨rfl, by norm_num, ?_, by norm_num, ?_⟩
  · rw [(click_to_seek_spec
      { zoom := 100, isFollowing := false, viewCenterTime := 30, draggingCueId := none,
        isPanning := true, dragStartX := 10, dragStartTime := 30, snapToGrid := true }
      ⟨0, 0, 800, 400⟩ 60 12 rfl).1 (by norm_num)]
    norm_num [xToTime, visibleStartTime]
  · exact (click_to_seek_spec
      { zoom := 100, isFollowing := false, viewCenterTime := 30, draggingCueId := none,
        isPanning := true, dragStartX := 10, dragStartTime := 30, snapToGrid := true }
      ⟨0, 0, 800, 400⟩ 60 100 rfl).2 (by norm_num)

/-- C5: panNewCenter is the clamp formula of the specification; pointer-down
on the background disables follow mode; every pan pointer-move sets the view
center to clamp(startCenterTime - (currentX - startX)/zoom, 0, duration); and
a whole sequence of pan moves keeps the view center within [0, duration]. -/
theorem pan_spec :
    (∀ dragStartTime zoom duration dragStartX clientX : ℚ,
      panNewCenter dragStartTime zoom duration dragStartX clientX =
        max 0 (min duration (dragStartTime - (clientX - dragStartX) / zoom))) ∧
    (∀ (s : TimelineState) (clientX : ℚ), (handleMouseDown s clientX).isFollowing = false) ∧
    (∀ (s : TimelineState) (rect : Option Rect) (duration clientX clientY : ℚ),
      s.draggingCueId = none → s.isPanning = true →
      handleGlobalMouseMove s rect duration clientX clientY =
        .setCenter (panNewCenter s.dragStartTime s.zoom duration s.dragStartX clientX)) ∧
    (∀ duration : ℚ, 0 ≤ duration →
      ∀ (zoom c0 : ℚ), 0 ≤ c0 → c0 ≤ duration →
      ∀ moves : List (ℚ × ℚ),
        0 ≤ moves.foldl (fun c m => panNewCenter c zoom duration m.1 m.2) c0 ∧
        moves.foldl (fun c m => panNewCenter c zoom duration m.1 m.2) c0 ≤ duration) := by
  refine ⟨fun _ _ _ _ _ => rfl, fun _ _ => rfl, ?_, ?_⟩
  · intro s rect duration clientX clientY hdrag hpan
    cases rect <;> simp [handleGlobalMouseMove, hdrag, hpan, panNewCenter]
  · intro duration hd zoom c0 h0 h1 moves
    exact pan_fold_bounds duration zoom hd moves c0 h0 h1

/-- Witness for C5: a pointer-down clears follow; a pan move from start X 10
to X 20 at center 30 sets the center to 29.9; a two-move pan sequence from
center 30 stays at least 0. -/
theorem pan_spec_witness :
    panNewCenter 30 100 60 10 20 = max 0 (min 60 (30 - (20 - 10) / 100)) ∧
    (handleMouseDown
      { zoom := 100, isFollowing := true, viewCenterTime := 5, draggingCueId := none,
        isPanning := false, dragStartX := 0, dragStartTime := 0, snapToGrid := true }
      7).isFollowing = false ∧
    handleGlobalMouseMove
      { zoom := 100, isFollowing := false, viewCenterTime := 30, draggingCueId := none,
        isPanning := true, dragStartX := 10, dragStartTime := 30, snapToGrid := true }
      none 60 20 0 = .setCenter (299/10) ∧
    0 ≤ List.foldl (fun c m => panNewCenter c 100 60 m.1 m.2) 30 [(0, 50), (10, -200)] := by
  refine ⟨pan_spec.1 30 100 60 10 20, pan_spec.2.1 _ 7, ?_,
    (pan_spec.2.2.2 60 (by norm_num) 100 30 (by norm_num) (by norm_num) _).1⟩
  rw [pan_spec.2.2.1
    { zoom := 100, isFollowing := false, viewCenterTime := 30, draggingCueId := none,
      isPanning := true, dragStartX := 10, dragStartTime := 30, snapToGrid := true }
    none 60 20 0 rfl rfl]
  norm_num [panNewCenter]

/-- C2: over the cues sorted ascending by time, the view at sorted index i
classifies the cue as past iff delta is below -0.5 and as now iff delta lies
in [-0.5, 0]; with windowStart = 0 for the first cue and the previous sorted
time otherwise, the progress is the elapsed fraction of the window times 100
(100 for an empty window) when the current time lies in the window, 100 when
the current time has passed the cue, and 0 otherwise; and the next cue is the
first sorted cue strictly after the current time, absent when none exists. -/
theorem projector_spec (cues : List Cue) (currentTime : ℚ) (i : ℕ) (cue : Cue)
    (view : CueView)
    (hc : (sortCues cues).get? i = some cue)
    (hv : (project cues currentTime).get? i = some view) :
    (view.isPast = true ↔ cue.time - currentTime < -(1/2 : ℚ)) ∧
    (view.isNow = true ↔ (-(1/2 : ℚ) ≤ cue.time - currentTime ∧ cue.time - currentTime ≤ 0)) ∧
    (∀ ws : ℚ,
      ws = (if i = 0 then 0 else (((sortCues cues).get? (i - 1)).map Cue.time).getD 0) →
      ((ws ≤ currentTime ∧ currentTime ≤ cue.time) →
        (0 < cue.time - ws →
          view.progressPercent = (currentTime - ws) / (cue.time - ws) * 100) ∧
        (cue.time - ws = 0 → view.progressPercent = 100)) ∧
      (currentTime > cue.time → view.progressPercent = 100) ∧
      ((¬(ws ≤ currentTime ∧ currentTime ≤ cue.time) ∧ ¬(currentTime > cue.time)) →
        view.progressPercent = 0)) ∧
    nextCue cues currentTime = (sortCues cues).find? fun c => decide (currentTime < c.time) := by
  obtain ⟨cue', hc', hveq⟩ := projectViews_get? currentTime (sortCues cues) 0 i view hv
  rw [hc] at hc'
  cases hc'
  subst hveq
  refine ⟨?_, ?_, ?_, nextCue_eq_find? cues currentTime⟩
  · simp [mkView]
  · simp only [mkView, Bool.and_eq_true, Bool.not_eq_true', decide_eq_false_iff_not,
      decide_eq_true_eq, not_lt]
  · intro ws hws
    subst hws
    refine ⟨?_, ?_, ?_⟩
    · intro ⟨h1, h2⟩
      constructor
      · intro h3
        simp only [mkView]
        rw [if_pos (by
          simp only [Bool.and_eq_true, decide_eq_true_eq]
          exact ⟨h1, h2⟩), if_pos h3]
      · intro h3
        simp only [mkView]
        rw [if_pos (by
          simp only [Bool.and_eq_true, decide_eq_true_eq]
          exact ⟨h1, h2⟩), if_neg (by rw [h3]; exact lt_irrefl 0)]
    · intro h
      simp only [mkView]
      rw [if_neg (by
        simp only [Bool.and_eq_true, decide_eq_true_eq, not_and]
        intro _
        exact not_le.mpr h), if_pos h]
    · intro ⟨h1, h2⟩
      simp only [mkView]
      rw [if_neg (by
        simp only [Bool.and_eq_true, decide_eq_true_eq]
        exact h1), if_neg h2]

/-- Witness for C2 at one cue of time 10 with current time 5: the view is
the active segment at progress 50, matching (5 - 0)/(10 - 0)*100. -/
theorem projector_spec_witness :
    (sortCues [⟨"a", 10, "x", "red", 0⟩]).get? 0 = some ⟨"a", 10, "x", "red", 0⟩ ∧
    (project [⟨"a", 10, "x", "red", 0⟩] 5).get? 0 = some ⟨false, false, true, 50⟩ ∧
    (⟨false, false, true, 50⟩ : CueView).progressPercent = (5 - 0) / (10 - 0) * 100 := by
  have hview : (project [(⟨"a", 10, "x", "red", 0⟩ : Cue)] 5).get? 0 =
      some ⟨false, false, true, 50⟩ := by
    norm_num [project, projectViews, sortCues, insertCue, mkView, CueView.mk.injEq]
  refine ⟨by decide, hview, ?_⟩
  have h := projector_spec [⟨"a", 10, "x", "red", 0⟩] 5 0 ⟨"a", 10, "x", "red", 0⟩
    ⟨false, false, true, 50⟩ (by decide) hview
  exact ((h.2.2.1 0 (by decide)).1 ⟨by norm_num, by norm_num⟩).1 (by norm_num)

/-- C10: applying the store update issued by a cue-drag pointer move keeps
the cue count and positional order, preserves id, label and color of every
cue, rewrites time and row of the cue whose id matches, and leaves every
other cue untouched. -/
theorem drag_update_frame_spec (cues : List Cue) (r : Rect)
    (viewCenterTime zoom duration : ℚ) (snap : Bool) (clientX clientY : ℚ)
    (cueId : String) :
    (updateCueTimeRow cues cueId
        (dragMoveUpdate r viewCenterTime zoom duration snap clientX clientY).time
        (dragMoveUpdate r viewCenterTime zoom duration snap clientX clientY).row).length =
      cues.length ∧
    (∀ (i : ℕ) (c c' : Cue), cues.get? i = some c →
      (updateCueTimeRow cues cueId
          (dragMoveUpdate r viewCenterTime zoom duration snap clientX clientY).time
          (dragMoveUpdate r viewCenterTime zoom duration snap clientX clientY).row).get? i =
        some c' →
      c'.id = c.id ∧ c'.label = c.label ∧ c'.color = c.color ∧
      (c.id = cueId →
        c'.time = (dragMoveUpdate r viewCenterTime zoom duration snap clientX clientY).time ∧
        c'.row = (dragMoveUpdate r viewCenterTime zoom duration snap clientX clientY).row) ∧
      (c.id ≠ cueId → c' = c)) := by
  constructor
  · exact List.length_map _ _
  · intro i c c' hc hc'
    rw [updateCueTimeRow, List.get?_map, hc] at hc'
    simp only [Option.map_some', Option.some.injEq] at hc'
    by_cases h : c.id = cueId
    · rw [if_pos h] at hc'
      subst hc'
      exact ⟨rfl, rfl, rfl, fun _ => ⟨rfl, rfl⟩, fun hne => absurd h hne⟩
    · rw [if_neg h] at hc'
      subst hc'
      exact ⟨rfl, rfl, rfl, fun heq => absurd heq h, fun _ => rfl⟩

/-- Witness for C10 on a two-cue store: the count stays 2 and the updated
first cue keeps its id. -/
theorem drag_update_frame_spec_witness :
    (updateCueTimeRow [⟨"c1", 0, "L", "red", 0⟩, ⟨"c2", 7, "M", "blue", 1⟩] "c1"
        (dragMoveUpdate ⟨0, 0, 800, 400⟩ 5 100 60 true 437 (-50)).time
        (dragMoveUpdate ⟨0, 0, 800, 400⟩ 5 100 60 true 437 (-50)).row).length = 2 ∧
    (⟨"c1", 27/5, "L", "red", 0⟩ : Cue).id = (⟨"c1", 0, "L", "red", 0⟩ : Cue).id := by
  have h := drag_update_frame_spec [⟨"c1", 0, "L", "red", 0⟩, ⟨"c2", 7, "M", "blue", 1⟩]
    ⟨0, 0, 800, 400⟩ 5 100 60 true 437 (-50) "c1"
  refine ⟨h.1.trans rfl, ?_⟩
  exact (h.2 0 ⟨"c1", 0, "L", "red", 0⟩ ⟨"c1", 27/5, "L", "red", 0⟩ rfl (by
    rw [updateCueTimeRow, List.get?_map]
    norm_num [dragMoveUpdate, jsRound, jsFloor, NUM_ROWS, min_def, max_def])).1

/-- mapIdx after map fuses into one mapIdx. -/
theorem mapIdx_map_comp {α β γ : Type} (f : α → β) :
    ∀ (l : List α) (g : ℕ → β → γ), (l.map f).mapIdx g = l.mapIdx fun i a => g i (f a) := by
  intro l
  induction l with
  | nil => intro g; rfl
  | cons a l ih =>
    intro g
    simp only [List.map_cons, List.mapIdx_cons]
    rw [ih fun i => g (i + 1)]

/-- Mapping from any start index over records none of which is null never
throws and normalises each record at its index. -/
theorem normalizeCues_no_null (fresh : ℕ → String) :
    ∀ (cs : List JVal), (∀ x ∈ cs, x ≠ JVal.jnull) → ∀ i : ℕ,
      normalizeCues fresh i cs =
        some (cs.mapIdx fun j x => normalizeCue (fresh (i + j)) x) := by
  intro cs
  induction cs with
  | nil => intro h i; rfl
  | cons c rest ih =>
    intro h i
    have hc : normalizeCue? (fresh i) c = some (normalizeCue (fresh i) c) := by
      cases c with
      | jnull => exact absurd rfl (h _ (List.mem_cons_self _ _))
      | jbool b => rfl
      | jnum q => rfl
      | jstr s => rfl
      | jarr xs => rfl
      | jobj fs => rfl
    have hrest := ih (fun x hx => h x (List.mem_cons_of_mem _ hx)) (i + 1)
    show (match normalizeCue? (fresh i) c with
          | none => none
          | some n => (normalizeCues fresh (i + 1) rest).map (n :: ·)) =
      some ((c :: rest).mapIdx fun j x => normalizeCue (fresh (i + j)) x)
    rw [hc, hrest]
    simp only [Option.map_some', List.mapIdx_cons, Option.some.injEq, List.cons.injEq]
    refine ⟨by rw [Nat.add_zero], ?_⟩
    have harith : ∀ j : ℕ, i + 1 + j = i + (j + 1) := fun j => by omega
    simp only [harith]

/-- Importing the JSON serialisation of a store cue keeps time and row and
keeps id, label and color exactly when they are non-empty. -/
theorem normalizeCue_cueToJson (fresh : String) (c : Cue) :
    normalizeCue fresh (cueToJson c) =
      { id := .jstr (if c.id = "" then fresh else c.id)
        time := .fin c.time
        label := .jstr (if c.label = "" then "Imported Cue" else c.label)
        color := .jstr (if c.color = "" then "#ef4444" else c.color)
        row := c.row } := by
  have hid : getField (cueToJson c) "id" = some (.jstr c.id) := rfl
  have htime : getField (cueToJson c) "time" = some (.jnum c.time) := rfl
  have hlabel : getField (cueToJson c) "label" = some (.jstr c.label) := rfl
  have hcolor : getField (cueToJson c) "color" = some (.jstr c.color) := rfl
  have hrow : getField (cueToJson c) "row" = some (.jnum c.row) := rfl
  unfold normalizeCue
  rw [hid, htime, hlabel, hcolor, hrow]
  simp only [jsOr, truthyV, jsToNumber, jvalToNumber, jsOrNum, ImportedCue.mk.injEq]
  refine ⟨?_, ?_, ?_, ?_, trivial⟩
  · by_cases h : c.id = "" <;> simp [h]
  · by_cases h : c.time = 0 <;> simp [h]
  · by_cases h : c.label = "" <;> simp [h]
  · by_cases h : c.color = "" <;> simp [h]

/-- C6 (amended): exporting the store and importing the document back yields
one normalised cue per store cue in order (same count); time and row are
always preserved; id, label and color are preserved exactly when non-empty,
and an empty id, label or color is replaced by the fresh id, the label
default and the color default respectively. -/
theorem export_import_roundtrip (fresh : ℕ → String) (fileName : Option String)
    (duration : ℚ) (exportDate : String) (cues : List Cue) :
    handleCueImport fresh (some (exportDoc fileName duration cues exportDate)) =
      .replaced (cues.mapIdx fun i c =>
        { id := .jstr (if c.id = "" then fresh i else c.id)
          time := .fin c.time
          label := .jstr (if c.label = "" then "Imported Cue" else c.label)
          color := .jstr (if c.color = "" then "#ef4444" else c.color)
          row := c.row }) ∧
    (cues.mapIdx (fun i c =>
        ({ id := .jstr (if c.id = "" then fresh i else c.id)
           time := .fin c.time
           label := .jstr (if c.label = "" then "Imported Cue" else c.label)
           color := .jstr (if c.color = "" then "#ef4444" else c.color)
           row := c.row } : ImportedCue))).length = cues.length := by
  have hcues : getField (exportDoc fileName duration cues exportDate) "cues" =
      some (.jarr (cues.map cueToJson)) := by
    cases fileName <;> rfl
  constructor
  · have h1 : handleCueImport fresh (some (exportDoc fileName duration cues exportDate)) =
        (match getField (exportDoc fileName duration cues exportDate) "cues" with
         | some (.jarr cs) =>
           (match normalizeCues fresh 0 cs with
            | some l => ImportResult.replaced l
            | none => ImportResult.importError "Failed to parse JSON file.")
         | _ => .importError "Invalid JSON format: missing cues array.") := rfl
    have hnn : ∀ x ∈ cues.map cueToJson, x ≠ JVal.jnull := by
      intro x hx
      obtain ⟨a, _, rfl⟩ := List.mem_map.mp hx
      simp [cueToJson]
    rw [h1, hcues]
    show (match normalizeCues fresh 0 (cues.map cueToJson) with
          | some l => ImportResult.replaced l
          | none => ImportResult.importError "Failed to parse JSON file.") = _
    rw [normalizeCues_no_null fresh (cues.map cueToJson) hnn 0]
    show ImportResult.replaced
        ((cues.map cueToJson).mapIdx fun j c => normalizeCue (fresh (0 + j)) c) = _
    rw [mapIdx_map_comp]
    simp only [normalizeCue_cueToJson, Nat.zero_add]
  · exact List.length_mapIdx

/-- C6 counterexample: a store cue with an empty label does not survive the
round trip — its label comes back as the import default. -/
theorem export_import_roundtrip_counterexample :
    handleCueImport (fun _ => "u") (some (exportDoc (some "song.mp3") 100
        [{ id := "a", time := 1, label := "", color := "#ef4444", row := 0 }] "2026-01-01")) =
      .replaced [{ id := .jstr "a", time := .fin 1, label := .jstr "Imported Cue",
                   color := .jstr "#ef4444", row := 0 }] ∧
    JVal.jstr "Imported Cue" ≠ JVal.jstr "" := by
  constructor
  · rfl
  · intro h
    injection h with h'
    exact absurd h' (by decide)

/-- C8: an unparsable document or one without a cues array is rejected with
an error message and the cue store is left untouched. -/
theorem import_error_spec (fresh : ℕ → String) (old : List ImportedCue) :
    (∃ msg, handleCueImport fresh none = .importError msg ∧
       importNewStore old (handleCueImport fresh none) = old) ∧
    (∀ data : JVal, (∀ cs : List JVal, getField data "cues" ≠ some (.jarr cs)) →
       ∃ msg, handleCueImport fresh (some data) = .importError msg ∧
         importNewStore old (handleCueImport fresh (some data)) = old) := by
  constructor
  · exact ⟨_, rfl, rfl⟩
  · intro data h
    cases data with
    | jnull => exact ⟨_, rfl, rfl⟩
    | jbool b => exact ⟨_, rfl, rfl⟩
    | jnum q => exact ⟨_, rfl, rfl⟩
    | jstr s => exact ⟨_, rfl, rfl⟩
    | jarr xs => exact ⟨_, rfl, rfl⟩
    | jobj fs =>
      have h1 : handleCueImport fresh (some (.jobj fs)) =
          (match getField (.jobj fs) "cues" with
           | some (.jarr cs) =>
             (match normalizeCues fresh 0 cs with
              | some l => ImportResult.replaced l
              | none => ImportResult.importError "Failed to parse JSON file.")
           | _ => ImportResult.importError "Invalid JSON format: missing cues array.") := rfl
      have he : handleCueImport fresh (some (.jobj fs)) =
          ImportResult.importError "Invalid JSON format: missing cues array." := by
        rcases hd : getField (.jobj fs) "cues" with _ | v
        · rw [h1, hd]
        · cases v with
          | jarr cs => exact absurd hd (h cs)
          | jnull => rw [h1, hd]
          | jbool b => rw [h1, hd]
          | jnum q => rw [h1, hd]
          | jstr s => rw [h1, hd]
          | jobj fs2 => rw [h1, hd]
      exact ⟨_, he, by rw [he]; rfl⟩

/-- Witness for C8: a parse failure and a document without cues both leave
the store unchanged. -/
theorem import_error_spec_witness :
    (∃ msg, handleCueImport (fun _ => "u") none = .importError msg ∧
       importNewStore [] (handleCueImport (fun _ => "u") none) = []) ∧
    (∃ msg, handleCueImport (fun _ => "u") (some (.jobj [])) = .importError msg ∧
       importNewStore [] (handleCueImport (fun _ => "u") (some (.jobj []))) = []) :=
  ⟨(import_error_spec (fun _ => "u") []).1,
   (import_error_spec (fun _ => "u") []).2 (.jobj []) (fun cs h => Option.noConfusion h)⟩

/-- C9 (amended): a failed audio decode leaves the loaded project — buffer,
file name, duration and cue set — exactly as before, but playback has been
stopped and the current time reset to 0, because the upload handler stops
playback before decoding. -/
theorem upload_decode_failure_spec (s : AppState) (name : String) :
    (handleFileUpload s (some (name, none))).audioBuffer = s.audioBuffer ∧
    (handleFileUpload s (some (name, none))).fileName = s.fileName ∧
    (handleFileUpload s (some (name, none))).duration = s.duration ∧
    (handleFileUpload s (some (name, none))).cues = s.cues ∧
    (handleFileUpload s (some (name, none))).isPlaying = false ∧
    (handleFileUpload s (some (name, none))).currentTime = 0 ∧
    (handleFileUpload s (some (name, none))).pauseTime = 0 := by
  unfold handleFileUpload handleStop pauseAudio
  exact ⟨rfl, rfl, rfl, rfl, rfl, rfl, rfl⟩

/-- C9 counterexample: with playback running at 42 s, a failed decode resets
the current time to 0 and stops playback, so the playback state and current
time do not remain as they were. -/
theorem upload_decode_failure_counterexample :
    (handleFileUpload
        { audioBuffer := some ⟨100, 0⟩, fileName := some "old.mp3", isPlaying := true,
          currentTime := 42, duration := 100, cues := [], pauseTime := 42 }
        (some ("new.mp3", none))).currentTime = 0 ∧
    (handleFileUpload
        { audioBuffer := some ⟨100, 0⟩, fileName := some "old.mp3", isPlaying := true,
          currentTime := 42, duration := 100, cues := [], pauseTime := 42 }
        (some ("new.mp3", none))).isPlaying = false ∧
    (0 : ℚ) ≠ 42 ∧ false ≠ true := by
  exact ⟨rfl, rfl, by norm_num, by decide⟩

end CueSheet
